import Mathlib

/-!
Verification of the native audio-capture pipeline (Rust crate `native-module`)
against its natural-language specification.

Shallow embedding conventions:
* `f32` samples are modelled exactly: finite values as rationals (`ℚ`), with
  explicit constructors for NaN and the two infinities (`F32` below).  The
  passthrough conversion path multiplies a clamped value by `32767.0`; on the
  concrete inputs used in the theorems below this product is exact in `f32`,
  so the rational model agrees with the machine arithmetic there.
* `i16` results are modelled as `ℤ`; the Rust `as i16` cast (saturating,
  truncating toward zero, NaN to 0) is embedded explicitly.
* The AVFoundation sample-rate converter used by the convert path of
  `Resampler::resample` is external to the repository; it is passed in as an
  oracle argument, while all bookkeeping around the call (capacity estimate,
  reallocation policy) is embedded faithfully from `resampler.rs`.
-/

namespace NativeAudio

/-- Model of an `f32` value: a finite rational, NaN, or an infinity. -/
inductive F32 where
  | nan : F32
  | inf : F32
  | negInf : F32
  | val : ℚ → F32
  deriving DecidableEq, Repr

/-- Rust `f32::clamp(-1.0, 1.0)`: NaN stays NaN, infinities clamp to the
corresponding endpoint, finite values clamp into `[-1, 1]`
(`resampler.rs:76`, `sample.clamp(-1.0, 1.0)`). -/
def clampUnit : F32 → F32
  | .nan => .nan
  | .inf => .val 1
  | .negInf => .val (-1)
  | .val q => .val (max (-1) (min 1 q))

/-- Multiplication of an `f32` by the positive finite constant `32767.0`
(`resampler.rs:76`). -/
def mul32767 : F32 → F32
  | .nan => .nan
  | .inf => .inf
  | .negInf => .negInf
  | .val q => .val (q * 32767)

/-- Truncation toward zero, the rounding used by Rust `as` casts on
in-range values. -/
def truncQ (q : ℚ) : ℤ :=
  if 0 ≤ q then ⌊q⌋ else ⌈q⌉

/-- Rust `expr as i16` on an `f32` value: NaN casts to 0, the cast saturates
at the `i16` bounds, and otherwise truncates toward zero. -/
def i16cast : F32 → ℤ
  | .nan => 0
  | .inf => 32767
  | .negInf => -32768
  | .val q =>
    if q < -32768 then -32768
    else if 32767 < q then 32767
    else truncQ q

/-- One sample of the passthrough conversion in `Resampler::resample`
(`resampler.rs:76`): `(sample.clamp(-1.0, 1.0) * 32767.0) as i16`. -/
def passthroughSample (x : F32) : ℤ :=
  i16cast (mul32767 (clampUnit x))

/-- Embedded state of `Resampler` (`resampler.rs:3`): whether the converter is
absent (passthrough mode), the declared input rate, and the frame capacity of
the reusable output buffer. -/
structure Resampler where
  passthrough : Bool
  input_rate : ℚ
  capacity : ℕ
  deriving DecidableEq, Repr

/-- `Resampler::new` (`resampler.rs:36`): passthrough mode iff
`|input_rate - 16000| < 1`; the output buffer is allocated with 1024 frames of
capacity in passthrough mode and 2048 in convert mode.  Format and converter
creation are external API calls that succeed on the supported platform; their
failure paths return early with an error and build no resampler. -/
def Resampler.new (input_rate : ℚ) : Resampler :=
  if |input_rate - 16000| < 1 then
    ⟨true, input_rate, 1024⟩
  else
    ⟨false, input_rate, 2048⟩

/-- Output-capacity estimate of the convert path (`resampler.rs:106`):
`(frame_count as f64 * (16000.0 / input_rate)).ceil() as u32 + 10`. -/
def expectedOutFrames (rate : ℚ) (len : ℕ) : ℕ :=
  (⌈(len : ℚ) * (16000 / rate)⌉).toNat + 10

/-- `Resampler::resample` (`resampler.rs:72`).  Passthrough: map the
per-sample conversion over the input.  Convert: reallocate the output buffer
to `expected * 2` frames when its capacity is below the estimate
(`resampler.rs:109`), then delegate to the external converter oracle. -/
def Resampler.resample (r : Resampler) (converter : List F32 → Option (List ℤ))
    (input : List F32) : Resampler × Except String (List ℤ) :=
  if r.passthrough then
    (r, .ok (input.map passthroughSample))
  else
    let expected := expectedOutFrames r.input_rate input.length
    let r' := if r.capacity < expected then { r with capacity := expected * 2 } else r
    match converter input with
    | none => (r', .error "Resampling failed")
    | some out => (r', .ok out)

/-- Converter oracle that always fails; convert-path results are never needed
at the concrete inputs below. -/
def noConv : List F32 → Option (List ℤ) := fun _ => none

/-- Modelled from the spec: the constant `CHUNK_SAMPLES` lives in
`audio_config.rs`, which is not under `src/`; the spec fixes the frame size as
1600 samples (100 ms at 16 kHz). -/
def CHUNK_SAMPLES : ℕ := 1600

/-- The framing loop of the worker (`lib.rs:122`): while the accumulator holds
at least `CHUNK_SAMPLES` samples, drain exactly `CHUNK_SAMPLES` from the
front as one frame.  Returns the emitted frames in order and the remaining
accumulator. -/
def drainChunks (acc : List ℤ) : List (List ℤ) × List ℤ :=
  if _h : CHUNK_SAMPLES ≤ acc.length then
    let rest := drainChunks (acc.drop CHUNK_SAMPLES)
    (acc.take CHUNK_SAMPLES :: rest.1, rest.2)
  else
    ([], acc)
termination_by acc.length
decreasing_by
  simp only [List.length_drop]
  have : 0 < CHUNK_SAMPLES := by decide
  omega

/-- One framer step of the worker (`lib.rs:116` and `lib.rs:122`): the
resampled batch is appended to the accumulator, then full frames are
drained. -/
def framerStep (st : List (List ℤ) × List ℤ) (batch : List ℤ) :
    List (List ℤ) × List ℤ :=
  let d := drainChunks (st.2 ++ batch)
  (st.1 ++ d.1, d.2)

/-- The framer run over a sequence of resampled batches, starting from an
empty accumulator with no frames emitted (`lib.rs:96`). -/
def framerRun (batches : List (List ℤ)) : List (List ℤ) × List ℤ :=
  batches.foldl framerStep ([], [])

/-- Sleep interval of the worker loop in milliseconds (`lib.rs:141`,
`Duration::from_millis(1)`). -/
def SLEEP_MS : ℕ := 1

/-- Result of one worker-loop iteration: the frames completed in that
iteration, the accumulator carried to the next iteration, and whether the
iteration ended in a sleep. -/
structure IterResult where
  frames : List (List ℤ)
  acc : List ℤ
  slept : Bool
  deriving DecidableEq, Repr

/-- One iteration of the worker loop body after the drain (`lib.rs:113`):
append the resampled batch to the accumulator, emit full frames, then sleep
iff the accumulator holds fewer than `CHUNK_SAMPLES` samples
(`lib.rs:140`). -/
def workerIteration (acc resampled : List ℤ) : IterResult :=
  let d := drainChunks (acc ++ resampled)
  { frames := d.1, acc := d.2, slept := decide (d.2.length < CHUNK_SAMPLES) }

/-- Loop-exit decision of the worker (`lib.rs:100`): the only `break` is
guarded by the stop flag; the overflow terminate flag (`should_terminate` in
`speaker/macos.rs`) is not consulted — it is not even reachable from the
worker, which receives only the ring-buffer consumer. -/
def workerShouldExit (stopFlag _terminateFlag : Bool) : Bool :=
  stopFlag

/-- State of the overflow tracker in the realtime callback
(`speaker/macos.rs:129`): the consecutive-drops counter and the terminate
flag. -/
structure OTrack where
  consecutive : ℕ
  terminate : Bool
  deriving DecidableEq, Repr

/-- One `process_audio_data` overflow update (`speaker/macos.rs:284`): on a
fully-successful write the counter resets to zero; on a partial write the
counter increments, a warning is printed exactly when it equals 25, and the
terminate flag is stored when it exceeds 50.  Returns the new state and
whether the warning fired. -/
def overflowStep (s : OTrack) (fullWrite : Bool) : OTrack × Bool :=
  if fullWrite then
    ({ s with consecutive := 0 }, false)
  else
    let c := s.consecutive + 1
    (⟨c, s.terminate || decide (50 < c)⟩, decide (c = 25))

/-- The overflow tracker after `n` consecutive partial writes from the
initial state (counter 0, flag clear, `speaker/macos.rs:263`). -/
def overflowPartials : ℕ → OTrack
  | 0 => ⟨0, false⟩
  | n + 1 => (overflowStep (overflowPartials n) false).1

/-- Outcome of a lifecycle `start` call: what it returns to the caller,
whether the worker thread was spawned and began executing, and whether the
worker's initialization panics. -/
structure StartOutcome where
  ret : Except String Unit
  workerRuns : Bool
  workerPanics : Bool
  deriving Repr

/-- `SystemAudioCapture::start` (`lib.rs:54`): speaker-input construction
failure (`lib.rs:81`) and consumer hand-off failure (`lib.rs:87`) return
errors synchronously before the thread is spawned; otherwise the worker
thread is spawned and returns `Ok(())`.  Inside the spawned worker,
`Resampler::new(...).expect(...)` (`lib.rs:93`) panics the worker when the
resampler cannot be constructed. -/
def systemStart (speakerInputOk consumerOk resamplerOk : Bool) : StartOutcome :=
  if !speakerInputOk then
    ⟨.error "Failed to create speaker input", false, false⟩
  else if !consumerOk then
    ⟨.error "Failed to get consumer", false, false⟩
  else
    ⟨.ok (), true, !resamplerOk⟩

/-- `MicrophoneCapture::start` (`lib.rs:195`): a missing input (`lib.rs:215`)
or a `play` failure (`lib.rs:218`) returns an error synchronously; otherwise
the worker thread is spawned and `start` returns `Ok(())`, with
`Resampler::new(...).expect(...)` (`lib.rs:229`) panicking the worker when
the resampler cannot be constructed. -/
def micStart (inputPresent playOk resamplerOk : Bool) : StartOutcome :=
  if !inputPresent then
    ⟨.error "Capture already started or input missing", false, false⟩
  else if !playOk then
    ⟨.error "Failed to start stream", false, false⟩
  else
    ⟨.ok (), true, !resamplerOk⟩

/-- Segment forwarding in the worker (`lib.rs:127`): of the segments the VAD
returns for one frame, exactly those that are non-empty are delivered to the
sink callback. -/
def forwardSegments (segs : List (List ℤ)) : List (List ℤ) :=
  segs.filter (fun s => !s.isEmpty)

/-- Stereo-to-mono downmix of the core-audio callback
(`speaker/core_audio.rs:119`): consecutive interleaved pairs are averaged,
`(left + right) * 0.5`; a trailing unpaired value is dropped
(`frame_count = len / 2`). -/
def downmixStereo : List ℚ → List ℚ
  | l :: r :: rest => (l + r) * (1 / 2) :: downmixStereo rest
  | _ => []

/-- First-channel fallback of the core-audio callback
(`speaker/core_audio.rs:129`): take element `i * stride` for
`i < len / stride`. -/
def strideHeads (stride : ℕ) (data : List ℚ) : List ℚ :=
  if _h : 0 < stride ∧ stride ≤ data.length then
    data.headI :: strideHeads stride (data.drop stride)
  else []
termination_by data.length
decreasing_by
  simp only [List.length_drop]
  omega

/-- Channel handling of the core-audio speaker callback
(`speaker/core_audio.rs:115`): mono passes through, stereo is averaged,
other channel counts fall back to the first channel of each frame. -/
def coreAudioDownmix (channels : ℕ) (data : List ℚ) : List ℚ :=
  if channels = 1 then data
  else if channels = 2 then downmixStereo data
  else strideHeads channels data

/-- The microphone callback `write_input_data_f32` (`microphone.rs:60`):
`input.chunks(channels)` with `frame[0]` — the first channel of every frame,
for every channel count, including a trailing partial frame (Rust `chunks`
yields it). -/
def micDownmix (channels : ℕ) (input : List ℚ) : List ℚ :=
  if hne : 0 < channels ∧ input ≠ [] then
    input.headI :: micDownmix channels (input.drop channels)
  else []
termination_by input.length
decreasing_by
  simp only [List.length_drop]
  have : 0 < input.length := List.length_pos.mpr hne.2
  omega

/-- Interleaved stereo data built from a list of (left, right) frames. -/
def interleave : List (ℚ × ℚ) → List ℚ
  | [] => []
  | (l, r) :: rest => l :: r :: interleave rest

/-! ### Framer lemmas -/

theorem drainChunks_flatten (acc : List ℤ) :
    (drainChunks acc).1.flatten ++ (drainChunks acc).2 = acc := by
  induction acc using drainChunks.induct with
  | case1 acc h ih =>
    rw [drainChunks]
    simp only [dif_pos h, List.flatten_cons, List.append_assoc]
    rw [ih, List.take_append_drop]
  | case2 acc h =>
    rw [drainChunks]
    simp [dif_neg h]

theorem drainChunks_rem_lt (acc : List ℤ) :
    (drainChunks acc).2.length < CHUNK_SAMPLES := by
  induction acc using drainChunks.induct with
  | case1 acc h ih =>
    rw [drainChunks]
    simpa [dif_pos h] using ih
  | case2 acc h =>
    rw [drainChunks]
    simp only [dif_neg h]
    omega

theorem drainChunks_frames (acc : List ℤ) :
    ∀ f ∈ (drainChunks acc).1, f.length = CHUNK_SAMPLES := by
  induction acc using drainChunks.induct with
  | case1 acc h ih =>
    rw [drainChunks]
    simp only [dif_pos h, List.mem_cons]
    rintro f (rfl | hf)
    · simp [List.length_take, Nat.min_eq_left h]
    · exact ih f hf
  | case2 acc h =>
    rw [drainChunks]
    simp [dif_neg h]

theorem drainChunks_ne_nil (acc : List ℤ) (h : CHUNK_SAMPLES ≤ acc.length) :
    (drainChunks acc).1 ≠ [] := by
  rw [drainChunks]
  simp [dif_pos h]

theorem framerStep_spec (st : List (List ℤ) × List ℤ) (batch : List ℤ) :
    (framerStep st batch).2.length < CHUNK_SAMPLES ∧
    (framerStep st batch).1.flatten ++ (framerStep st batch).2 =
      st.1.flatten ++ (st.2 ++ batch) ∧
    ∀ f ∈ (framerStep st batch).1, f ∈ st.1 ∨ f.length = CHUNK_SAMPLES := by
  refine ⟨drainChunks_rem_lt _, ?_, ?_⟩
  · simp only [framerStep, List.flatten_append, List.append_assoc]
    rw [drainChunks_flatten]
  · intro f hf
    simp only [framerStep, List.mem_append] at hf
    rcases hf with hf | hf
    · exact Or.inl hf
    · exact Or.inr (drainChunks_frames _ f hf)

theorem framerRun_foldl (batches : List (List ℤ)) (st : List (List ℤ) × List ℤ) :
    (batches.foldl framerStep st).1.flatten ++ (batches.foldl framerStep st).2 =
      st.1.flatten ++ st.2 ++ batches.flatten ∧
    ((batches.foldl framerStep st).2.length < CHUNK_SAMPLES ∨
      (batches.foldl framerStep st).2 = st.2) ∧
    ∀ f ∈ (batches.foldl framerStep st).1, f ∈ st.1 ∨ f.length = CHUNK_SAMPLES := by
  induction batches generalizing st with
  | nil => exact ⟨by simp, Or.inr rfl, fun f hf => Or.inl (by simpa using hf)⟩
  | cons b rest ih =>
    simp only [List.foldl_cons, List.flatten_cons]
    obtain ⟨h1, h2, h3⟩ := ih (framerStep st b)
    obtain ⟨g1, g2, g3⟩ := framerStep_spec st b
    refine ⟨?_, ?_, ?_⟩
    · rw [h1, g2]
      simp [List.append_assoc]
    · rcases h2 with h2 | h2
      · exact Or.inl h2
      · exact Or.inl (h2 ▸ g1)
    · intro f hf
      rcases h3 f hf with hf' | hf'
      · exact g3 f hf'
      · exact Or.inr hf'

/-! ### Passthrough conversion lemmas -/

theorem truncQ_bounds (q : ℚ) (a b : ℤ) (ha : (a : ℚ) ≤ q) (hb : q ≤ (b : ℚ))
    (ha0 : a ≤ 0) (hb0 : 0 ≤ b) : a ≤ truncQ q ∧ truncQ q ≤ b := by
  unfold truncQ
  by_cases h : 0 ≤ q
  · rw [if_pos h]
    constructor
    · exact le_trans ha0 (Int.floor_nonneg.mpr h)
    · calc ⌊q⌋ ≤ ⌊(b : ℚ)⌋ := Int.floor_mono hb
        _ = b := Int.floor_intCast b
  · rw [if_neg h]
    push_neg at h
    constructor
    · calc a = ⌈(a : ℚ)⌉ := (Int.ceil_intCast a).symm
        _ ≤ ⌈q⌉ := Int.ceil_mono ha
    · refine le_trans ?_ hb0
      calc ⌈q⌉ ≤ ⌈(0 : ℚ)⌉ := Int.ceil_mono h.le
        _ = 0 := Int.ceil_zero

theorem passthroughSample_val (x : ℚ) :
    passthroughSample (.val x) = truncQ (max (-1) (min 1 x) * 32767) := by
  have hm1 : (-1 : ℚ) ≤ max (-1) (min 1 x) := le_max_left _ _
  have hm2 : max (-1) (min 1 x) ≤ 1 := max_le (by norm_num) (min_le_left _ _)
  have hq1 : (-32767 : ℚ) ≤ max (-1) (min 1 x) * 32767 := by nlinarith
  have hq2 : max (-1) (min 1 x) * 32767 ≤ 32767 := by nlinarith
  simp only [passthroughSample, clampUnit, mul32767, i16cast]
  rw [if_neg (by linarith), if_neg (by linarith)]

/-! ### Downmix lemmas -/

theorem downmixStereo_interleave (frames : List (ℚ × ℚ)) :
    downmixStereo (interleave frames) = frames.map (fun p => (p.1 + p.2) * (1 / 2)) := by
  induction frames with
  | nil => simp [interleave, downmixStereo]
  | cons p rest ih =>
    obtain ⟨l, r⟩ := p
    simp [interleave, downmixStereo, ih]

theorem micDownmix_interleave (frames : List (ℚ × ℚ)) :
    micDownmix 2 (interleave frames) = frames.map Prod.fst := by
  induction frames with
  | nil => rw [interleave, micDownmix]; simp
  | cons p rest ih =>
    obtain ⟨l, r⟩ := p
    rw [interleave, micDownmix]
    simp only [List.cons_ne_nil, Nat.zero_lt_succ, and_self, dite_true, ne_eq,
      not_false_eq_true, List.headI, List.drop_succ_cons, List.drop_zero]
    rw [ih]
    rfl

theorem strideHeads_flatten (c : ℕ) (hc : 0 < c) (fs : List (List ℚ))
    (hfs : ∀ f ∈ fs, f.length = c) :
    strideHeads c fs.flatten = fs.map List.headI := by
  induction fs with
  | nil =>
    rw [List.flatten_nil, strideHeads,
      dif_neg (by simp only [List.length_nil]; omega), List.map_nil]
  | cons f rest ih =>
    have hf : f.length = c := hfs f (List.mem_cons_self f rest)
    have hne : f ≠ [] := by
      intro hnil
      rw [hnil] at hf
      simp at hf
      omega
    rw [List.flatten_cons, strideHeads,
      dif_pos ⟨hc, by simp [hf]⟩]
    have hrest : ∀ g ∈ rest, g.length = c :=
      fun g hg => hfs g (List.mem_cons_of_mem _ hg)
    rw [List.map_cons]
    congr 1
    · cases f with
      | nil => exact absurd rfl hne
      | cons a t => rfl
    · have hdrop : (f ++ rest.flatten).drop c = rest.flatten := by
        rw [← hf, List.drop_left]
      rw [hdrop]
      exact ih hrest

theorem micDownmix_flatten (c : ℕ) (hc : 0 < c) (fs : List (List ℚ))
    (hfs : ∀ f ∈ fs, f.length = c) :
    micDownmix c fs.flatten = fs.map List.headI := by
  induction fs with
  | nil => rw [List.flatten_nil, micDownmix]; simp
  | cons f rest ih =>
    have hf : f.length = c := hfs f (List.mem_cons_self f rest)
    have hne : f ≠ [] := by
      intro hnil
      rw [hnil] at hf
      simp at hf
      omega
    have hne2 : f ++ rest.flatten ≠ [] := by
      simp [hne]
    rw [List.flatten_cons, micDownmix, dif_pos ⟨hc, hne2⟩]
    have hrest : ∀ g ∈ rest, g.length = c :=
      fun g hg => hfs g (List.mem_cons_of_mem _ hg)
    rw [List.map_cons]
    congr 1
    · cases f with
      | nil => exact absurd rfl hne
      | cons a t => rfl
    · have hdrop : (f ++ rest.flatten).drop c = rest.flatten := by
        rw [← hf, List.drop_left]
      rw [hdrop]
      exact ih hrest

/-! ### Overflow tracker lemmas -/

theorem overflowPartials_spec (n : ℕ) :
    (overflowPartials n).consecutive = n ∧
    (overflowPartials n).terminate = decide (50 < n) := by
  induction n with
  | zero => exact ⟨rfl, rfl⟩
  | succ n ih =>
    obtain ⟨h1, h2⟩ := ih
    simp only [overflowPartials, overflowStep, if_neg (by simp : ¬False), h1, h2]
    constructor
    · rfl
    · by_cases h : 50 < n
      · simp [h, Nat.lt_succ_of_lt h]
      · simp [h]

/-- The first component of `Resampler::resample` in convert mode: the
resampler state after the capacity check, independent of the converter's
outcome. -/
theorem resample_fst (r : Resampler) (conv : List F32 → Option (List ℤ))
    (input : List F32) (h : r.passthrough = false) :
    (r.resample conv input).1 =
      if r.capacity < expectedOutFrames r.input_rate input.length then
        { r with capacity := expectedOutFrames r.input_rate input.length * 2 }
      else r := by
  simp only [Resampler.resample, h, Bool.false_eq_true, if_false]
  cases hconv : conv input <;> simp

/-! ### Claim theorems -/

/-- C1 (counterexample): the claim says each passthrough output sample equals
`round(clamp(x,-1,1) * 32767)`.  At input `x = 1/2` the code produces 16383
(truncation toward zero of 16383.5, which is exact in `f32`), while rounding
would give 16384. -/
theorem c1_round_counterexample :
    ((Resampler.new 16000).resample noConv [F32.val (1 / 2)]).2 = .ok [16383] ∧
    round (max (-1) (min 1 ((1 : ℚ) / 2)) * 32767) = 16384 ∧
    (16383 : ℤ) ≠ 16384 := by
  have hp : Resampler.new 16000 = ⟨true, 16000, 1024⟩ := by
    rw [Resampler.new, if_pos (by norm_num)]
  have hclamp : max (-1) (min 1 ((1 : ℚ) / 2)) = 1 / 2 := by
    norm_num [min_def, max_def]
  have hprod : ((1 : ℚ) / 2) * 32767 = 32767 / 2 := by norm_num
  have hval : passthroughSample (.val ((1 : ℚ) / 2)) = 16383 := by
    rw [passthroughSample_val, hclamp, hprod]
    simp only [truncQ]
    rw [if_pos (by norm_num)]
    norm_num [Int.floor_eq_iff]
  have hval' : passthroughSample (.val ((2 : ℚ)⁻¹)) = 16383 := by
    rw [show ((2 : ℚ)⁻¹) = 1 / 2 by norm_num]
    exact hval
  refine ⟨?_, ?_, by norm_num⟩
  · simp [Resampler.resample, hp, hval, hval']
  · rw [hclamp, hprod]
    norm_num [round_eq, Int.floor_eq_iff]

/-- C1 (amended): in passthrough mode (`|input_rate - 16000| < 1`),
`resample` returns `Ok`, the output has the same length as the input, and
each output sample is `trunc(clamp(x, -1, 1) * 32767)` — truncation toward
zero (the Rust `as i16` cast), not rounding. -/
theorem c1_passthrough_trunc (rate : ℚ) (h : |rate - 16000| < 1)
    (conv : List F32 → Option (List ℤ)) (input : List F32) :
    ((Resampler.new rate).resample conv input).2 =
      .ok (input.map passthroughSample) ∧
    (input.map passthroughSample).length = input.length ∧
    ∀ x : ℚ, passthroughSample (.val x) = truncQ (max (-1) (min 1 x) * 32767) := by
  have hp : (Resampler.new rate).passthrough = true := by
    rw [Resampler.new, if_pos h]
  exact ⟨by simp [Resampler.resample, hp], by simp, fun x => passthroughSample_val x⟩

/-- C1 (witness): the amended theorem applied at rate 16000 and the
single-sample input `[1/2]`. -/
theorem c1_passthrough_trunc_witness :
    ((Resampler.new 16000).resample noConv [F32.val (1 / 2)]).2 =
      .ok ([F32.val (1 / 2)].map passthroughSample) ∧
    ([F32.val (1 / 2)].map passthroughSample).length = [F32.val (1 / 2)].length ∧
    ∀ x : ℚ, passthroughSample (.val x) = truncQ (max (-1) (min 1 x) * 32767) :=
  c1_passthrough_trunc 16000 (by norm_num) noConv [F32.val (1 / 2)]

/-- C2 (counterexample): with the speaker input constructible but the
resampler not, `start` returns `Ok(())` and the worker thread runs (it is
spawned and panics at `Resampler::new(...).expect(...)` inside the thread),
contradicting the claim that the error is returned synchronously and the
worker never runs. -/
theorem c2_start_counterexample :
    (systemStart true true false).ret = .ok () ∧
    (systemStart true true false).workerRuns = true ∧
    (systemStart true true false).workerPanics = true :=
  ⟨rfl, rfl, rfl⟩

/-- C2 (amended): capture-source construction failure is returned
synchronously from `start` and the worker never runs; resampler construction
failure is NOT returned from `start` — `start` returns `Ok(())`, the worker
thread runs, and it panics during its initialization.  The same holds for the
microphone variant. -/
theorem c2_start_amended (cOk rOk : Bool) :
    (systemStart false cOk rOk).ret = .error "Failed to create speaker input" ∧
    (systemStart false cOk rOk).workerRuns = false ∧
    (systemStart true true rOk).ret = .ok () ∧
    (systemStart true true rOk).workerRuns = true ∧
    (systemStart true true rOk).workerPanics = !rOk ∧
    (micStart true true rOk).ret = .ok () ∧
    (micStart true true rOk).workerRuns = true ∧
    (micStart true true rOk).workerPanics = !rOk :=
  ⟨rfl, rfl, rfl, rfl, rfl, rfl, rfl, rfl⟩

/-- C3 (code bug): the overflow terminate flag is set by the producer after
51 consecutive partial writes, but the worker's loop-exit decision reads only
the stop flag — with the stop flag clear and the terminate flag set, the
worker does not exit.  The callback's own log line says "capture stopping",
yet nothing in the repository ever reads `should_terminate`. -/
theorem c3_terminate_unobserved :
    (overflowPartials 51).terminate = true ∧
    workerShouldExit false true = false := by
  refine ⟨?_, rfl⟩
  rw [(overflowPartials_spec 51).2]
  rfl

/-- C4: for every sequence of resampled batches fed to the framer from an
empty accumulator, the remaining accumulator holds strictly fewer than
`CHUNK_SAMPLES` (1600) samples, every emitted frame has exactly
`CHUNK_SAMPLES` samples, and the emitted frames followed by the remainder
reproduce all appended samples in order, with nothing skipped or
duplicated. -/
theorem c4_framer_invariants (batches : List (List ℤ)) :
    (framerRun batches).2.length < CHUNK_SAMPLES ∧
    (∀ f ∈ (framerRun batches).1, f.length = CHUNK_SAMPLES) ∧
    (framerRun batches).1.flatten ++ (framerRun batches).2 = batches.flatten := by
  simp only [framerRun]
  obtain ⟨h1, h2, h3⟩ := framerRun_foldl batches ([], [])
  refine ⟨?_, ?_, ?_⟩
  · rcases h2 with h | h
    · exact h
    · rw [h]
      decide
  · intro f hf
    rcases h3 f hf with h | h
    · simp at h
    · exact h
  · simpa using h1

/-- C5 (counterexample): after exactly 50 consecutive partial writes the
counter reads 50 but the terminate flag is still clear — the flag is set only
when the counter exceeds 50, i.e. on the 51st consecutive partial write, not
upon reaching 50 as the claim states. -/
theorem c5_threshold_counterexample :
    (overflowPartials 50).consecutive = 50 ∧
    (overflowPartials 50).terminate = false := by
  obtain ⟨h1, h2⟩ := overflowPartials_spec 50
  exact ⟨h1, by rw [h2]; rfl⟩

/-- C5 (amended): the consecutive-partial-write counter resets to zero on any
fully-successful write; the warning fires exactly when the count reaches 25;
the terminate flag is set when the count EXCEEDS 50 (first true after the
51st consecutive partial write). -/
theorem c5_overflow_amended (s : OTrack) (n : ℕ) :
    (overflowStep s true).1.consecutive = 0 ∧
    (overflowStep s false).2 = decide (s.consecutive + 1 = 25) ∧
    (overflowPartials n).consecutive = n ∧
    (overflowPartials n).terminate = decide (50 < n) :=
  ⟨rfl, rfl, (overflowPartials_spec n).1, (overflowPartials_spec n).2⟩

/-- C6 (counterexample): for input rate 48000 and an input batch of 4800
samples, the convert-mode capacity check leaves the output buffer at its
initial 2048 frames (the estimate `ceil(4800/3) + 10 = 1610` does not exceed
it), which is below the input length 4800 — the code never takes
`max(estimate, input_len)`. -/
theorem c6_capacity_counterexample :
    (((Resampler.new 48000).resample noConv
        (List.replicate 4800 F32.nan)).1).capacity = 2048 ∧
    2048 < (List.replicate 4800 F32.nan).length := by
  have hnew : Resampler.new 48000 = ⟨false, 48000, 2048⟩ := by
    rw [Resampler.new, if_neg (by norm_num)]
  have hexp : expectedOutFrames 48000 (List.replicate 4800 F32.nan).length = 1610 := by
    rw [List.length_replicate]
    simp only [expectedOutFrames]
    have h16 : (⌈((4800 : ℕ) : ℚ) * (16000 / 48000)⌉ : ℤ) = 1600 := by
      push_cast
      norm_num [Int.ceil_eq_iff]
    rw [h16]
    rfl
  constructor
  · rw [hnew, resample_fst _ _ _ rfl]
    dsimp only
    rw [hexp, if_neg (by norm_num)]
  · rw [List.length_replicate]
    norm_num

/-- C6 (amended): in convert mode, the output buffer capacity used by the
call is always at least the code's estimate
`ceil(input_len * 16000 / input_rate) + 10`; it is NOT guaranteed to be at
least the input length. -/
theorem c6_capacity_amended (r : Resampler) (conv : List F32 → Option (List ℤ))
    (input : List F32) (h : r.passthrough = false) :
    expectedOutFrames r.input_rate input.length ≤
      ((r.resample conv input).1).capacity := by
  rw [resample_fst r conv input h]
  split
  · dsimp only
    omega
  · omega

/-- C6 (witness): the amended theorem applied to the convert-mode resampler
for input rate 48000 and a 4800-sample batch. -/
theorem c6_capacity_amended_witness :
    expectedOutFrames (Resampler.new 48000).input_rate
        (List.replicate 4800 F32.nan).length ≤
      (((Resampler.new 48000).resample noConv
          (List.replicate 4800 F32.nan)).1).capacity :=
  c6_capacity_amended (Resampler.new 48000) noConv (List.replicate 4800 F32.nan)
    (by rw [Resampler.new, if_neg (by norm_num)])

/-- C7 (counterexample): the microphone callback is a capture source, and for
2-channel input it pushes the FIRST channel of each frame, not the average:
on the single stereo frame `(1, 0)` it pushes 1, while the claimed average is
`(1 + 0) * (1/2) = 1/2`. -/
theorem c7_mic_average_counterexample :
    micDownmix 2 [(1 : ℚ), 0] = [1] ∧
    ([1] : List ℚ) ≠ [((1 : ℚ) + 0) * (1 / 2)] := by
  constructor
  · rw [micDownmix, dif_pos ⟨by norm_num, by simp⟩]
    simp only [List.headI, List.drop_succ_cons, List.drop_zero]
    rw [micDownmix, dif_neg (by simp)]
  · simp only [ne_eq, List.cons.injEq, and_true]
    norm_num

/-- C7 (amended): the core-audio speaker callback downmixes 2-channel input
to the per-frame average of the two channels and takes the first channel of
each frame for channel counts above 2; the microphone callback takes the
first channel of each frame for EVERY channel count (no averaging). -/
theorem c7_downmix_amended (frames : List (ℚ × ℚ)) (c : ℕ) (hc : 2 < c)
    (fs : List (List ℚ)) (hfs : ∀ f ∈ fs, f.length = c) :
    coreAudioDownmix 2 (interleave frames) =
      frames.map (fun p => (p.1 + p.2) * (1 / 2)) ∧
    micDownmix 2 (interleave frames) = frames.map Prod.fst ∧
    coreAudioDownmix c fs.flatten = fs.map List.headI ∧
    micDownmix c fs.flatten = fs.map List.headI := by
  refine ⟨?_, micDownmix_interleave frames, ?_, ?_⟩
  · rw [coreAudioDownmix, if_neg (by norm_num), if_pos rfl]
    exact downmixStereo_interleave frames
  · rw [coreAudioDownmix, if_neg (by omega), if_neg (by omega)]
    exact strideHeads_flatten c (by omega) fs hfs
  · exact micDownmix_flatten c (by omega) fs hfs

/-- C7 (witness): the amended theorem applied to one stereo frame `(1, 0)`
and one 3-channel frame `[5, 6, 7]`. -/
theorem c7_downmix_amended_witness :
    coreAudioDownmix 2 (interleave [((1 : ℚ), (0 : ℚ))]) =
      [((1 : ℚ), (0 : ℚ))].map (fun p => (p.1 + p.2) * (1 / 2)) ∧
    micDownmix 2 (interleave [((1 : ℚ), (0 : ℚ))]) =
      [((1 : ℚ), (0 : ℚ))].map Prod.fst ∧
    coreAudioDownmix 3 ([[(5 : ℚ), 6, 7]]).flatten =
      [[(5 : ℚ), 6, 7]].map List.headI ∧
    micDownmix 3 ([[(5 : ℚ), 6, 7]]).flatten =
      [[(5 : ℚ), 6, 7]].map List.headI :=
  c7_downmix_amended [((1 : ℚ), (0 : ℚ))] 3 (by norm_num) [[(5 : ℚ), 6, 7]]
    (by simp)

/-- C8 (counterexample): an iteration fed a full frame's worth of samples
completes a frame AND still sleeps — the sleep condition
`accumulator.len() < CHUNK_SAMPLES` always holds after framing, so the sleep
is not conditional on whether a frame was completed. -/
theorem c8_sleep_counterexample :
    (workerIteration [] (List.replicate CHUNK_SAMPLES 0)).frames ≠ [] ∧
    (workerIteration [] (List.replicate CHUNK_SAMPLES 0)).slept = true := by
  constructor
  · simp only [workerIteration, List.nil_append]
    exact drainChunks_ne_nil _ (by simp)
  · simp [workerIteration, drainChunks_rem_lt]

/-- C8 (amended): the worker sleeps a fixed 1 ms (≤ 5 ms) in EVERY loop
iteration, whether or not a frame was completed, because after the framing
loop the accumulator always holds fewer than `CHUNK_SAMPLES` samples. -/
theorem c8_sleep_amended :
    SLEEP_MS ≤ 5 ∧
    ∀ acc resampled : List ℤ, (workerIteration acc resampled).slept = true := by
  refine ⟨by decide, fun acc resampled => ?_⟩
  simp [workerIteration, drainChunks_rem_lt]

/-- C9: every segment forwarded to the sink callback is non-empty — the
worker filters out empty segments before calling the sink, for any output the
VAD produces on a frame. -/
theorem c9_nonempty_segments (segs : List (List ℤ)) (s : List ℤ)
    (hs : s ∈ forwardSegments segs) : s ≠ [] := by
  intro hnil
  subst hnil
  simp [forwardSegments, List.mem_filter] at hs

/-- C9 (witness): applied to a VAD output containing a non-empty and an empty
segment. -/
theorem c9_nonempty_segments_witness : ([1] : List ℤ) ≠ [] :=
  c9_nonempty_segments [[(1 : ℤ)], []] [1] (by decide)

/-- C10: for every `f32` input sample — finite of any magnitude, NaN, or
infinite — the passthrough conversion yields an `i16` value `s` with
`-32767 ≤ s ≤ 32767`; the value -32768 is never produced. -/
theorem c10_passthrough_range (x : F32) :
    -32767 ≤ passthroughSample x ∧
    passthroughSample x ≤ 32767 ∧
    passthroughSample x ≠ -32768 := by
  cases x with
  | nan =>
    refine ⟨by norm_num [passthroughSample, clampUnit, mul32767, i16cast], ?_, ?_⟩ <;>
      norm_num [passthroughSample, clampUnit, mul32767, i16cast]
  | inf =>
    have h : passthroughSample .inf = 32767 := by
      simp only [passthroughSample, clampUnit, mul32767, i16cast, one_mul, truncQ]
      rw [if_neg (by norm_num), if_neg (by norm_num), if_pos (by norm_num)]
      norm_num [Int.floor_eq_iff]
    rw [h]
    norm_num
  | negInf =>
    have h : passthroughSample .negInf = -32767 := by
      simp only [passthroughSample, clampUnit, mul32767, i16cast, neg_mul, one_mul,
        truncQ]
      rw [if_neg (by norm_num), if_neg (by norm_num), if_neg (by norm_num)]
      norm_num [Int.ceil_eq_iff]
    rw [h]
    norm_num
  | val q =>
    rw [passthroughSample_val]
    have hm1 : (-1 : ℚ) ≤ max (-1) (min 1 q) := le_max_left _ _
    have hm2 : max (-1) (min 1 q) ≤ 1 := max_le (by norm_num) (min_le_left _ _)
    have hq1 : ((-32767 : ℤ) : ℚ) ≤ max (-1) (min 1 q) * 32767 := by
      push_cast
      nlinarith
    have hq2 : max (-1) (min 1 q) * 32767 ≤ ((32767 : ℤ) : ℚ) := by
      push_cast
      nlinarith
    obtain ⟨h1, h2⟩ := truncQ_bounds _ _ _ hq1 hq2 (by norm_num) (by norm_num)
    exact ⟨h1, h2, by omega⟩

end NativeAudio
